import Mathlib

/-!
# Verification of the RazorIMU frame decoder (`src/razorIMU.py`)

This file gives a shallow embedding of the core of `razorIMU.py`:

* the CRC-8/MAXIM checksum function `crc8_value` (the Python code builds it
  with `crcmod.predefined.mkPredefinedCrcFun('crc-8-maxim')`: polynomial
  0x31, reflected input/output, init 0, no final xor);
* the frame-decoding loop `RazorIMU.parseResponses`: a while-loop gated on
  `exitFlag.isSet()` that, per iteration, reads one byte looking for the
  sync byte `0xAA`, then one byte looking for `0xBB`, then 50 further bytes
  (49 payload bytes plus a checksum byte), decodes fields at fixed
  little-endian offsets, and pushes the resulting record onto `dataQueue`
  with a running `Index` counter;
* the `RazorIMU.begin` setup control flow (port-existence and port-open
  checks guarding the launch of the decoder thread).

Modelling conventions:

* bytes are `Nat` (values below 256 in any real stream);
* the serial device is a finite `List Nat` of pending bytes; a read past
  the end of the list models the read failing (with pyserial and no
  timeout a disconnect raises; `ord` of an empty read raises `TypeError`),
  which aborts the loop — this is the `IoError` of the design document;
* the three `'<fff'` float fields are modelled by the raw little-endian
  32-bit words read from the buffer; the IEEE-754 reinterpretation that
  `struct.unpack_from` performs is a pure bijection on these bit patterns
  and is orthogonal to the decoding logic being verified;
* the wall-clock `Time` field of the emitted message is not modelled;
* the `exitFlag` event is monotone (set once, never cleared), so a run of
  the loop is fully described by the number `k` of polls that observe the
  flag unset: the loop body executes at most `k` times and the poll
  numbered `k + 1` (if reached) observes the flag set and exits.
-/

/-- One decoded frame, mirroring the `data_frame` dictionary built in
`RazorIMU.parseResponses` (keys `syncAA`, `syncBB`, `ID`, `Acc`, `Gyro`,
`Mag`, `euler`, `crc8maxim`) together with the `Index` counter added to the
outgoing message.  The four triple fields hold the raw little-endian 32-bit
words whose IEEE-754 float interpretations the Python code stores. -/
structure Frame where
  syncAA : Nat
  syncBB : Nat
  ID : Nat
  Acc : Nat × Nat × Nat
  Gyro : Nat × Nat × Nat
  Mag : Nat × Nat × Nat
  euler : Nat × Nat × Nat
  crc8maxim : Nat
  Index : Nat
  deriving DecidableEq, Repr

/-- Little-endian 32-bit word read from `buffer` at byte offset `off`,
modelling one `'<f'` item of `struct.unpack_from('<fff', buffer, off)` at
the bit-pattern level.  Inside the decoder the buffer always has length 50
and `off + 3 ≤ 48`, so the `getD` defaults are never consulted there. -/
def getLE32 (buffer : List Nat) (off : Nat) : Nat :=
  buffer.getD off 0 + 256 * buffer.getD (off + 1) 0 +
    65536 * buffer.getD (off + 2) 0 + 16777216 * buffer.getD (off + 3) 0

/-- The frame assembled in the body of `parseResponses` from the two sync
bytes, the 50-byte `buffer` returned by `device.read(50)`, and the running
`index` counter: `ID` from offset 0 (`'<B'`), the four float triples from
offsets 1, 13, 25, 37 (`'<fff'`), and `crc8maxim` from offset 49 (`'<B'`). -/
def mkFrame (syncAA syncBB : Nat) (buffer : List Nat) (index : Nat) : Frame :=
  { syncAA := syncAA
    syncBB := syncBB
    ID := buffer.getD 0 0
    Acc := (getLE32 buffer 1, getLE32 buffer 5, getLE32 buffer 9)
    Gyro := (getLE32 buffer 13, getLE32 buffer 17, getLE32 buffer 21)
    Mag := (getLE32 buffer 25, getLE32 buffer 29, getLE32 buffer 33)
    euler := (getLE32 buffer 37, getLE32 buffer 41, getLE32 buffer 45)
    crc8maxim := buffer.getD 49 0
    Index := index }

/-- One shift-and-xor round of the reflected CRC-8/MAXIM update (0x8C is
the bit-reversed polynomial 0x31). -/
def crc8_round (c : Nat) : Nat :=
  if c % 2 = 1 then (c / 2) ^^^ 0x8C else c / 2

/-- `n` rounds of `crc8_round`. -/
def crc8_rounds : Nat → Nat → Nat
  | 0, c => c
  | n + 1, c => crc8_rounds n (crc8_round c)

/-- Model of `RazorIMU.crc8_value`: the predefined `crc-8-maxim` function
of `crcmod` (poly 0x31, reflected, init 0x00, xorOut 0x00) over a byte
list. -/
def crc8_value (data : List Nat) : Nat :=
  data.foldl (fun c b => crc8_rounds 8 ((c ^^^ b) % 256)) 0

/-- One iteration of the `while` body of `parseResponses`, acting on the
pending byte stream `s` with the current `index` counter.

* `none`: a read failed because the stream was exhausted (`IoError`);
* `some (none, rest)`: no frame this iteration — either the first byte was
  not `0xAA` (it is discarded, resynchronisation), or it was `0xAA` but the
  second byte was not `0xBB` (both are discarded — the second byte is NOT
  re-examined as a sync candidate); `rest` is the unconsumed stream;
* `some (some f, rest)`: both sync bytes matched and 50 body bytes were
  available; `f` is the decoded frame and `rest` the unconsumed stream. -/
def step (s : List Nat) (index : Nat) : Option (Option Frame × List Nat) :=
  match s with
  | [] => none
  | syncAA :: rest1 =>
    if syncAA = 0xAA then
      match rest1 with
      | [] => none
      | syncBB :: rest2 =>
        if syncBB = 0xBB then
          if 50 ≤ rest2.length then
            some (some (mkFrame syncAA syncBB (rest2.take 50) index), rest2.drop 50)
          else none
        else some (none, rest2)
    else some (none, rest1)

/-- Outcome of a run of the decode loop.

* `frames`: the frames pushed onto `dataQueue`, in push order (the queue is
  FIFO, so this list is exactly what the consumer receives);
* `err`: `true` iff the loop was aborted by a failed read (an exception
  escaping the loop), `false` iff it exited normally via the `exitFlag`
  poll;
* `polls`: how many times `exitFlag.isSet()` was evaluated;
* `iters`: how many loop-body iterations ran to completion;
* `rest`: the bytes never handed to a completed iteration. -/
structure RunResult where
  frames : List Frame
  err : Bool
  polls : Nat
  iters : Nat
  rest : List Nat
  deriving DecidableEq, Repr

/-- The `while not self.exitFlag.isSet()` loop of `parseResponses`.  `k` is
the number of polls that observe the flag unset (the flag is a monotone
`threading.Event`), `s` the pending byte stream, `index` the counter. -/
def parseLoop : Nat → List Nat → Nat → RunResult
  | 0, s, _ => { frames := [], err := false, polls := 1, iters := 0, rest := s }
  | k + 1, s, index =>
    match step s index with
    | none => { frames := [], err := true, polls := 1, iters := 0, rest := s }
    | some (none, r) =>
      let out := parseLoop k r index
      { frames := out.frames, err := out.err, polls := out.polls + 1,
        iters := out.iters + 1, rest := out.rest }
    | some (some f, r) =>
      let out := parseLoop k r (index + 1)
      { frames := f :: out.frames, err := out.err, polls := out.polls + 1,
        iters := out.iters + 1, rest := out.rest }

/-- `RazorIMU.parseResponses` itself: the guard `if not self.isOpen:
return` runs before the loop (before any poll or read); when the port is
open it runs the loop with `index = 0`. -/
def parseResponses (isOpen : Bool) (k : Nat) (s : List Nat) : RunResult :=
  if isOpen then parseLoop k s 0
  else { frames := [], err := false, polls := 0, iters := 0, rest := s }

/-- Observable outcome of `RazorIMU.begin`: the returned boolean, whether
`threading.Thread(...).start()` was reached, the final value of
`self.isOpen`, and how many reads `begin` itself issued on the device. -/
structure BeginResult where
  ret : Bool
  threadStarted : Bool
  isOpen : Bool
  readsIssued : Nat
  deriving DecidableEq, Repr

/-- Control flow of `RazorIMU.begin`: if `os.path.exists(com_port)` fails,
log and return `False` (leaving `self.isOpen` at its prior value);
otherwise open the port, and if `device.is_open` is false set
`self.isOpen = False` and return `False`; otherwise set `self.isOpen =
True`, start the decoder thread and return `True`.  `begin` never reads
from the device itself. -/
def begin (pathExists portIsOpen isOpen0 : Bool) : BeginResult :=
  if pathExists = false then
    { ret := false, threadStarted := false, isOpen := isOpen0, readsIssued := 0 }
  else if portIsOpen = false then
    { ret := false, threadStarted := false, isOpen := false, readsIssued := 0 }
  else
    { ret := true, threadStarted := true, isOpen := true, readsIssued := 0 }

/-- Little-endian encoding of a 32-bit word as four bytes (the inverse
direction of `getLE32`, used to state the round-trip property). -/
def encLE32 (w : Nat) : List Nat :=
  [w % 256, w / 256 % 256, w / 65536 % 256, w / 16777216 % 256]

/-- A 49-byte payload carrying the given field values at the documented
offsets: sensor id at 0, acceleration words at 1, angular-rate words at
13, magnetic-field words at 25, orientation words at 37, each triple
little-endian. -/
def encodePayload (sid ax ay az gx gy gz mx my mz ex ey ez : Nat) : List Nat :=
  sid :: (encLE32 ax ++ (encLE32 ay ++ (encLE32 az ++ (encLE32 gx ++
    (encLE32 gy ++ (encLE32 gz ++ (encLE32 mx ++ (encLE32 my ++
    (encLE32 mz ++ (encLE32 ex ++ (encLE32 ey ++ encLE32 ez)))))))))))

set_option maxRecDepth 100000

/-! ## Helper lemmas -/

/-- Sanity check of the CRC model against the standard CRC-8/MAXIM check
value: the ASCII string "123456789" hashes to 0xA1. -/
theorem crc8_value_check_string :
    crc8_value [0x31, 0x32, 0x33, 0x34, 0x35, 0x36, 0x37, 0x38, 0x39] = 0xA1 := by
  decide

theorem encodePayload_length (sid ax ay az gx gy gz mx my mz ex ey ez : Nat) :
    (encodePayload sid ax ay az gx gy gz mx my mz ex ey ez).length = 49 := by
  simp [encodePayload, encLE32]

/-- Decoding a little-endian-encoded word at offset 0 recovers the word. -/
theorem getLE32_encLE32 (w : Nat) (post : List Nat) (hw : w < 4294967296) :
    getLE32 (encLE32 w ++ post) 0 = w := by
  simp [getLE32, encLE32]
  omega

/-- A matched sync pair followed by a length-50 body decodes to one frame
and consumes the whole stream. -/
theorem step_decode (body : List Nat) (index : Nat) (h : body.length = 50) :
    step (0xAA :: 0xBB :: body) index =
      some (some (mkFrame 0xAA 0xBB body index), []) := by
  simp [step, h, List.take_of_length_le (le_of_eq h),
    List.drop_eq_nil_of_le (le_of_eq h)]

theorem parseLoop_nil_frames (k index : Nat) :
    (parseLoop k [] index).frames = [] := by
  cases k <;> simp [parseLoop, step]

/-- With at least one unset poll, a stream consisting of exactly one
well-formed frame yields exactly that frame. -/
theorem parseLoop_single (k : Nat) (body : List Nat) (index : Nat)
    (h : body.length = 50) (hk : 1 ≤ k) :
    (parseLoop k (0xAA :: 0xBB :: body) index).frames =
      [mkFrame 0xAA 0xBB body index] := by
  obtain ⟨k, rfl⟩ : ∃ m, k = m + 1 := ⟨k - 1, by omega⟩
  simp [parseLoop, step_decode body index h, parseLoop_nil_frames]


/-- Inversion for a frame-emitting iteration: both sync bytes were `0xAA`,
`0xBB`, a 50-byte body followed, and the frame is its decode. -/
theorem step_emit_inv {s : List Nat} {index : Nat} {f : Frame} {r : List Nat}
    (h : step s index = some (some f, r)) :
    ∃ body, s = 0xAA :: 0xBB :: (body ++ r) ∧ body.length = 50 ∧
      f = mkFrame 0xAA 0xBB body index := by
  rcases s with _ | ⟨a, s1⟩
  · simp [step] at h
  by_cases ha : a = 0xAA
  · subst ha
    rcases s1 with _ | ⟨b, s2⟩
    · simp [step] at h
    by_cases hb : b = 0xBB
    · subst hb
      by_cases hl : 50 ≤ s2.length
      · simp only [step, if_pos rfl, if_pos hl, Option.some.injEq,
          Prod.mk.injEq] at h
        obtain ⟨rfl, rfl⟩ := h
        refine ⟨s2.take 50, by rw [List.take_append_drop], ?_, rfl⟩
        simp [List.length_take]
        omega
      · simp [step, hl] at h
    · simp [step, hb] at h
  · simp [step, ha] at h

/-- Every completed iteration consumes at least one byte. -/
theorem step_consume_lt {s : List Nat} {index : Nat} {o : Option Frame}
    {r : List Nat} (h : step s index = some (o, r)) : r.length < s.length := by
  rcases s with _ | ⟨a, s1⟩
  · simp [step] at h
  by_cases ha : a = 0xAA
  · subst ha
    rcases s1 with _ | ⟨b, s2⟩
    · simp [step] at h
    by_cases hb : b = 0xBB
    · subst hb
      by_cases hl : 50 ≤ s2.length
      · simp only [step, if_pos rfl, if_pos hl, Option.some.injEq,
          Prod.mk.injEq] at h
        obtain ⟨-, rfl⟩ := h
        simp
        omega
      · simp [step, hl] at h
    · simp only [step, if_pos rfl, if_neg hb, Option.some.injEq,
        Prod.mk.injEq] at h
      obtain ⟨-, rfl⟩ := h
      simp
      omega
  · simp only [step, if_neg ha, Option.some.injEq, Prod.mk.injEq] at h
    obtain ⟨-, rfl⟩ := h
    simp

/-- A stream of at most 51 bytes can never supply the 52 bytes a frame
needs, so no frame is ever emitted from it. -/
theorem no_frames_of_short (k : Nat) : ∀ (s : List Nat) (index : Nat),
    s.length ≤ 51 → (parseLoop k s index).frames = [] := by
  induction k with
  | zero => intro s index _; rfl
  | succ k ih =>
    intro s index h
    rcases hstep : step s index with _ | ⟨of, r⟩
    · simp [parseLoop, hstep]
    rcases of with _ | f
    · have hlt := step_consume_lt hstep
      simp only [parseLoop, hstep]
      exact ih r index (by omega)
    · obtain ⟨body, hs, hlen, -⟩ := step_emit_inv hstep
      rw [hs] at h
      simp [hlen] at h
      omega

/-- If the exit flag stays unset for more polls than there are bytes, the
finite stream is exhausted mid-read and the run aborts with an error. -/
theorem err_of_short (k : Nat) : ∀ (s : List Nat) (index : Nat),
    s.length < k → (parseLoop k s index).err = true := by
  induction k with
  | zero => intro s index h; omega
  | succ k ih =>
    intro s index h
    rcases hstep : step s index with _ | ⟨of, r⟩
    · simp [parseLoop, hstep]
    · have hlt := step_consume_lt hstep
      rcases of with _ | f
      · simp only [parseLoop, hstep]
        exact ih r index (by omega)
      · simp only [parseLoop, hstep]
        exact ih r (index + 1) (by omega)

/-- The flag is consulted exactly once per loop iteration (plus the final
poll, which either observes the flag or belongs to an aborted iteration). -/
theorem polls_eq_iters_succ (k : Nat) : ∀ (s : List Nat) (index : Nat),
    (parseLoop k s index).polls = (parseLoop k s index).iters + 1 := by
  induction k with
  | zero => intro s index; rfl
  | succ k ih =>
    intro s index
    rcases hstep : step s index with _ | ⟨of, r⟩
    · simp [parseLoop, hstep]
    rcases of with _ | f
    · simp only [parseLoop, hstep]
      simpa using ih r index
    · simp only [parseLoop, hstep]
      simpa using ih r (index + 1)

/-- Allowing one more unset poll extends the pushed-frame list by at most
one frame (the one decoded by the extra iteration, if any). -/
theorem parseLoop_succ_frames (k : Nat) : ∀ (s : List Nat) (index : Nat),
    ∃ t, (parseLoop (k + 1) s index).frames =
      (parseLoop k s index).frames ++ t ∧ t.length ≤ 1 := by
  induction k with
  | zero =>
    intro s index
    rcases hstep : step s index with _ | ⟨of, r⟩
    · exact ⟨[], by simp [parseLoop, hstep], by simp⟩
    rcases of with _ | f
    · exact ⟨[], by simp [parseLoop, hstep], by simp⟩
    · exact ⟨[f], by simp [parseLoop, hstep], by simp⟩
  | succ k ih =>
    intro s index
    rcases hstep : step s index with _ | ⟨of, r⟩
    · exact ⟨[], by simp [parseLoop, hstep], by simp⟩
    rcases of with _ | f
    · obtain ⟨t, ht, hl⟩ := ih r index
      exact ⟨t, by simp only [parseLoop, hstep]; simpa using ht, hl⟩
    · obtain ⟨t, ht, hl⟩ := ih r (index + 1)
      exact ⟨t, by simp only [parseLoop, hstep]; simpa using ht, hl⟩

/-- The frames of a run carry consecutive `Index` values starting at the
initial counter value, in push order. -/
theorem frames_map_range' (k : Nat) : ∀ (s : List Nat) (index : Nat),
    (parseLoop k s index).frames.map Frame.Index =
      List.range' index (parseLoop k s index).frames.length := by
  induction k with
  | zero => intro s index; rfl
  | succ k ih =>
    intro s index
    rcases hstep : step s index with _ | ⟨of, r⟩
    · simp [parseLoop, hstep]
    rcases of with _ | f
    · simp only [parseLoop, hstep]
      simpa using ih r index
    · have hf : f.Index = index := by
        obtain ⟨body, -, -, hfeq⟩ := step_emit_inv hstep
        rw [hfeq]
        rfl
      simp only [parseLoop, hstep]
      simp [hf, ih r (index + 1), List.range'_succ]

theorem getD_take_of_lt (l : List Nat) (n m : Nat) (h : m < n) :
    (l.take n).getD m 0 = l.getD m 0 := by
  unfold List.getD
  rw [List.get?_eq_getElem?, List.get?_eq_getElem?, List.getElem?_take_of_lt h]
/-- Decoding the 50-byte body `encodePayload … ++ [crc]` recovers every
encoded field value and the appended checksum byte. -/
theorem mkFrame_encode (sid ax ay az gx gy gz mx my mz ex ey ez crc index : Nat)
    (hax : ax < 4294967296) (hay : ay < 4294967296) (haz : az < 4294967296)
    (hgx : gx < 4294967296) (hgy : gy < 4294967296) (hgz : gz < 4294967296)
    (hmx : mx < 4294967296) (hmy : my < 4294967296) (hmz : mz < 4294967296)
    (hex : ex < 4294967296) (hey : ey < 4294967296) (hez : ez < 4294967296) :
    mkFrame 0xAA 0xBB
        (encodePayload sid ax ay az gx gy gz mx my mz ex ey ez ++ [crc]) index =
      { syncAA := 0xAA, syncBB := 0xBB, ID := sid, Acc := (ax, ay, az),
        Gyro := (gx, gy, gz), Mag := (mx, my, mz), euler := (ex, ey, ez),
        crc8maxim := crc, Index := index } := by
  simp only [mkFrame, Frame.mk.injEq, Prod.mk.injEq]
  refine ⟨trivial, trivial, rfl, ⟨?_, ?_, ?_⟩, ⟨?_, ?_, ?_⟩, ⟨?_, ?_, ?_⟩,
    ⟨?_, ?_, ?_⟩, rfl, trivial⟩
  · exact getLE32_encLE32 ax [] hax
  · exact getLE32_encLE32 ay [] hay
  · exact getLE32_encLE32 az [] haz
  · exact getLE32_encLE32 gx [] hgx
  · exact getLE32_encLE32 gy [] hgy
  · exact getLE32_encLE32 gz [] hgz
  · exact getLE32_encLE32 mx [] hmx
  · exact getLE32_encLE32 my [] hmy
  · exact getLE32_encLE32 mz [] hmz
  · exact getLE32_encLE32 ex [] hex
  · exact getLE32_encLE32 ey [] hey
  · exact getLE32_encLE32 ez [] hez

/-! ## Claims -/

/-- C1: Round-trip decode — for every 49-byte payload (given by its sensor
id and twelve little-endian-encoded 32-bit field words) and checksum byte,
feeding the decoder the buffer `[0xAA, 0xBB] ++ payload ++ [crc]` produces
exactly one `Frame` whose `ID`, `Acc`, `Gyro`, `Mag`, `euler` and
`crc8maxim` fields equal the values encoded little-endian into the payload
at offsets 0, 1, 13, 25, 37 and 49 respectively, the last being the
appended CRC byte. -/
theorem razor_round_trip_decode
    (sid ax ay az gx gy gz mx my mz ex ey ez crc k : Nat)
    (hsid : sid < 256) (hcrc : crc < 256)
    (hax : ax < 4294967296) (hay : ay < 4294967296) (haz : az < 4294967296)
    (hgx : gx < 4294967296) (hgy : gy < 4294967296) (hgz : gz < 4294967296)
    (hmx : mx < 4294967296) (hmy : my < 4294967296) (hmz : mz < 4294967296)
    (hex : ex < 4294967296) (hey : ey < 4294967296) (hez : ez < 4294967296)
    (hk : 1 ≤ k) :
    (parseLoop k
        (0xAA :: 0xBB ::
          (encodePayload sid ax ay az gx gy gz mx my mz ex ey ez ++ [crc]))
        0).frames =
      [{ syncAA := 0xAA, syncBB := 0xBB, ID := sid, Acc := (ax, ay, az),
         Gyro := (gx, gy, gz), Mag := (mx, my, mz), euler := (ex, ey, ez),
         crc8maxim := crc, Index := 0 }] := by
  rw [parseLoop_single k _ 0 (by simp [encodePayload, encLE32]) hk,
    mkFrame_encode sid ax ay az gx gy gz mx my mz ex ey ez crc 0
      hax hay haz hgx hgy hgz hmx hmy hmz hex hey hez]

/-- Witness for C1 at a concrete payload. -/
theorem razor_round_trip_decode_witness :
    7 < 256 ∧ 161 < 256 ∧ 4294967295 < 4294967296 ∧ (1 : Nat) ≤ 1 ∧
    (parseLoop 1
        (0xAA :: 0xBB ::
          (encodePayload 7 1 2 3 4 5 6 8 9 10 11 12 4294967295 ++ [161]))
        0).frames =
      [{ syncAA := 0xAA, syncBB := 0xBB, ID := 7, Acc := (1, 2, 3),
         Gyro := (4, 5, 6), Mag := (8, 9, 10), euler := (11, 12, 4294967295),
         crc8maxim := 161, Index := 0 }] :=
  ⟨by decide, by decide, by decide, by decide,
    razor_round_trip_decode 7 1 2 3 4 5 6 8 9 10 11 12 4294967295 161 1
      (by decide) (by decide) (by decide) (by decide) (by decide) (by decide)
      (by decide) (by decide) (by decide) (by decide) (by decide) (by decide)
      (by decide) (by decide) (by decide)⟩

/-- C2: SeekSyncB drop policy — after a `0xAA` is consumed, a next byte
that is not `0xBB` is consumed and discarded (the iteration ends with
exactly those two bytes removed, emitting nothing, so the dropped byte is
never re-examined as a sync candidate); consequently the 53-byte stream
`[0xAA, 0xAA, 0xBB] ++ payload ++ [crc]` loses its first two bytes in one
iteration, leaving only 51 bytes, and no frame is ever decoded from it. -/
theorem razor_seekSyncB_drop (b index k crc : Nat) (s2 payload : List Nat)
    (hb : b ≠ 0xBB) (hp : payload.length = 49) :
    step (0xAA :: b :: s2) index = some (none, s2) ∧
    (parseLoop k (0xAA :: 0xAA :: 0xBB :: (payload ++ [crc])) 0).frames = [] := by
  constructor
  · simp [step, hb]
  · cases k with
    | zero => rfl
    | succ k =>
      have hstep : step (0xAA :: 0xAA :: 0xBB :: (payload ++ [crc])) 0 =
          some (none, 0xBB :: (payload ++ [crc])) := by
        simp [step]
      simp only [parseLoop, hstep]
      exact no_frames_of_short k _ 0 (by simp [hp])

/-- Witness for C2 at a concrete non-`0xBB` byte and payload. -/
theorem razor_seekSyncB_drop_witness :
    (0xAA : Nat) ≠ 0xBB ∧ (List.replicate 49 0).length = 49 ∧
    (step (0xAA :: 0xAA :: [3, 4]) 0 = some (none, [3, 4]) ∧
      (parseLoop 5 (0xAA :: 0xAA :: 0xBB :: (List.replicate 49 0 ++ [0])) 0).frames = []) :=
  ⟨by decide, by decide,
    razor_seekSyncB_drop 0xAA 0 5 0 [3, 4] (List.replicate 49 0)
      (by decide) (by decide)⟩

/-- C3: Resynchronization after noise — in SeekSyncA every byte other than
`0xAA` is consumed and silently discarded one at a time, and the stream
`[0x00, 0x11, 0xAA, 0xBB] ++ payload ++ [crc]` yields exactly one decoded
frame, identical to the one decoded from `[0xAA, 0xBB] ++ payload ++ [crc]`
(the two runs differ only by the two iterations that discard the noise). -/
theorem razor_resync_after_noise (payload : List Nat) (crc k : Nat)
    (hp : payload.length = 49) (hk : 1 ≤ k) :
    (∀ (a : Nat) (s : List Nat) (index : Nat), a ≠ 0xAA →
        step (a :: s) index = some (none, s)) ∧
    (parseLoop (k + 2) (0x00 :: 0x11 :: 0xAA :: 0xBB :: (payload ++ [crc]))
        0).frames =
      (parseLoop k (0xAA :: 0xBB :: (payload ++ [crc])) 0).frames ∧
    (parseLoop k (0xAA :: 0xBB :: (payload ++ [crc])) 0).frames.length = 1 := by
  refine ⟨fun a s index ha => by simp [step, ha], ?_, ?_⟩
  · have h1 : step (0x00 :: 0x11 :: 0xAA :: 0xBB :: (payload ++ [crc])) 0 =
        some (none, 0x11 :: 0xAA :: 0xBB :: (payload ++ [crc])) := by
      simp [step]
    have h2 : step (0x11 :: 0xAA :: 0xBB :: (payload ++ [crc])) 0 =
        some (none, 0xAA :: 0xBB :: (payload ++ [crc])) := by
      simp [step]
    simp only [parseLoop, h1, h2]
  · rw [parseLoop_single k _ 0 (by simp [hp]) hk]
    rfl

/-- Witness for C3 at a concrete payload. -/
theorem razor_resync_after_noise_witness :
    (List.replicate 49 2).length = 49 ∧ (1 : Nat) ≤ 1 ∧
    ((∀ (a : Nat) (s : List Nat) (index : Nat), a ≠ 0xAA →
        step (a :: s) index = some (none, s)) ∧
      (parseLoop 3 (0x00 :: 0x11 :: 0xAA :: 0xBB :: (List.replicate 49 2 ++ [9]))
          0).frames =
        (parseLoop 1 (0xAA :: 0xBB :: (List.replicate 49 2 ++ [9])) 0).frames ∧
      (parseLoop 1 (0xAA :: 0xBB :: (List.replicate 49 2 ++ [9])) 0).frames.length = 1) :=
  ⟨by decide, by decide,
    razor_resync_after_noise (List.replicate 49 2) 9 1 (by decide) (by decide)⟩

/-- C4: No CRC rejection — whenever both sync bytes matched and the body
read succeeds, a frame IS pushed (for every body, with no condition
relating its checksum byte to `crc8_value` of the 49 payload bytes), and
the `crc8maxim` field carries byte 49 of the body through unmodified; the
decode loop never consults the CRC validator. -/
theorem razor_no_crc_rejection (s2 : List Nat) (index : Nat)
    (h : 50 ≤ s2.length) :
    step (0xAA :: 0xBB :: s2) index =
      some (some (mkFrame 0xAA 0xBB (s2.take 50) index), s2.drop 50) ∧
    (mkFrame 0xAA 0xBB (s2.take 50) index).crc8maxim = s2.getD 49 0 := by
  constructor
  · simp [step, h]
  · show (s2.take 50).getD 49 0 = s2.getD 49 0
    exact getD_take_of_lt s2 50 49 (by omega)

/-- Witness for C4 at a body whose checksum byte does NOT match the
recomputed CRC-8/MAXIM of its payload: the frame is emitted anyway. -/
theorem razor_no_crc_rejection_witness :
    50 ≤ (List.replicate 49 0 ++ [1] : List Nat).length ∧
    (step (0xAA :: 0xBB :: (List.replicate 49 0 ++ [1])) 0 =
        some (some (mkFrame 0xAA 0xBB ((List.replicate 49 0 ++ [1]).take 50) 0),
          (List.replicate 49 0 ++ [1]).drop 50) ∧
      (mkFrame 0xAA 0xBB ((List.replicate 49 0 ++ [1]).take 50) 0).crc8maxim =
        (List.replicate 49 0 ++ [1]).getD 49 0) ∧
    crc8_value ((List.replicate 49 0 ++ [1]).take 49) ≠
      (List.replicate 49 0 ++ [1]).getD 49 0 :=
  ⟨by decide, razor_no_crc_rejection (List.replicate 49 0 ++ [1]) 0 (by decide),
    by decide⟩

/-- C5: Sequential indexing and order — for every run of the decode loop
(any flag timing `k`, any stream `s`), the frames pushed to the FIFO queue
carry `Index` values `0, 1, 2, …, N - 1` in push order, the counter being
incremented once per successfully decoded frame. -/
theorem razor_sequential_indexing (k : Nat) (s : List Nat) :
    (parseLoop k s 0).frames.map Frame.Index =
      List.range (parseLoop k s 0).frames.length := by
  rw [List.range_eq_range']
  exact frames_map_range' k s 0

/-- C6: 52-byte consumption — a frame-emitting iteration consumed exactly
52 bytes: the `0xAA` read in SeekSyncA, the `0xBB` read in SeekSyncB, and
a 50-byte body (49 payload bytes plus a checksum byte). -/
theorem razor_frame_consumes_52 {s : List Nat} {index : Nat} {f : Frame}
    {r : List Nat} (h : step s index = some (some f, r)) :
    ∃ body, s = 0xAA :: 0xBB :: (body ++ r) ∧ body.length = 50 ∧
      s.length = 52 + r.length := by
  obtain ⟨body, hs, hlen, -⟩ := step_emit_inv h
  refine ⟨body, hs, hlen, ?_⟩
  rw [hs]
  simp [hlen]
  omega

/-- Witness for C6 at a concrete one-frame stream. -/
theorem razor_frame_consumes_52_witness :
    step (0xAA :: 0xBB :: List.replicate 50 0) 0 =
      some (some (mkFrame 0xAA 0xBB (List.replicate 50 0) 0), []) ∧
    ∃ body, (0xAA :: 0xBB :: List.replicate 50 0 : List Nat) =
        0xAA :: 0xBB :: (body ++ []) ∧ body.length = 50 ∧
      (0xAA :: 0xBB :: List.replicate 50 0 : List Nat).length =
        52 + ([] : List Nat).length :=
  ⟨by decide,
    @razor_frame_consumes_52 (0xAA :: 0xBB :: List.replicate 50 0) 0
      (mkFrame 0xAA 0xBB (List.replicate 50 0) 0) [] (by decide)⟩

/-- C7: IoError propagation — for every finite stream left with fewer
bytes than the flag allows polls (so some read during sync search or body
read comes up short), the loop terminates with `err = true`, an outcome
distinct from the flag-observed exit (`parseLoop 0`, whose `err` is
`false`): the failed read aborts the loop as an exception rather than a
silent stop. -/
theorem razor_ioError_propagation (s : List Nat) (index k : Nat)
    (h : s.length < k) :
    (parseLoop k s index).err = true ∧ (parseLoop 0 s index).err = false :=
  ⟨err_of_short k s index h, rfl⟩

/-- Witness for C7: an empty stream with one unset poll aborts with an
error. -/
theorem razor_ioError_propagation_witness :
    ([] : List Nat).length < 1 ∧
    ((parseLoop 1 [] 0).err = true ∧ (parseLoop 0 [] 0).err = false) :=
  ⟨by decide, razor_ioError_propagation [] 0 1 (by decide)⟩

/-- C8: Setup failure — if the serial port path does not exist, `begin`
returns `False`, starts no decoder thread and issues no reads (leaving
`isOpen` untouched); if the path exists but the opened port is not open,
`begin` sets `isOpen` to `False` and returns `False` without starting the
thread. -/
theorem razor_begin_setup_failure :
    ∀ (portIsOpen isOpen0 : Bool),
      ((begin false portIsOpen isOpen0).ret = false ∧
        (begin false portIsOpen isOpen0).threadStarted = false ∧
        (begin false portIsOpen isOpen0).readsIssued = 0 ∧
        (begin false portIsOpen isOpen0).isOpen = isOpen0) ∧
      ((begin true false isOpen0).ret = false ∧
        (begin true false isOpen0).isOpen = false ∧
        (begin true false isOpen0).threadStarted = false ∧
        (begin true false isOpen0).readsIssued = 0) := by
  decide

/-- C9: Cancellation granularity — the flag is polled exactly once per
outer loop iteration (`polls = iters + 1`, the extra poll being the final
one), and letting the flag stay unset for one more poll extends the pushed
frames by at most one: once the flag is set, at most the frame of the
iteration in progress is still emitted. -/
theorem razor_cancellation_granularity (k : Nat) (s : List Nat) (index : Nat) :
    (parseLoop k s index).polls = (parseLoop k s index).iters + 1 ∧
    ∃ t, (parseLoop (k + 1) s index).frames =
        (parseLoop k s index).frames ++ t ∧ t.length ≤ 1 :=
  ⟨polls_eq_iters_succ k s index, parseLoop_succ_frames k s index⟩

/-- C10: Guard on `parseResponses` — invoked with the port not open, it
returns before the loop: no poll happens, no byte is read (the stream is
untouched), no frame is pushed and no error is raised. -/
theorem razor_parseResponses_guard (k : Nat) (s : List Nat) :
    parseResponses false k s =
      { frames := [], err := false, polls := 0, iters := 0, rest := s } :=
  rfl
